import Mathlib

/-!
Verification of the TinyC toolchain (tokenizer, parser, evaluator).

The Rust sources are embedded shallowly:

* `Token`, `Expression`, `Statement`, `Object` mirror the enums of
  token.rs, ast.rs and env.rs.
* Machine integers (`i64`) are modelled as unbounded `Int`; overflow
  behaviour is left unspecified by the reference and no claim depends
  on it.  Rust's `/` on `i64` truncates toward zero, which is `Int.tdiv`;
  division by zero panics in Rust, which is modelled by the evaluator
  returning `none`.
* `Rc<RefCell<Environment>>` sharing is modelled by an arena: a heap
  `List EnvData` indexed by `Nat`; an environment's `outer` field holds
  the index of the enclosing environment.  `HashMap` stores are
  association lists whose `storeSet` keeps at most one binding per key,
  exactly like a map insert.
* Recursive interpreter and parser functions carry an explicit fuel
  argument (structural recursion on the fuel); `none` means the fuel ran
  out.  A Rust execution that never terminates is a computation that is
  `none` at every fuel.
* Host I/O (the file builtins, printing) is outside the embedding; the
  builtins whose results are pure are modelled exactly, the I/O ones are
  given an explicit out-of-model marker.  No verified claim evaluates an
  I/O builtin.
-/

/-- token.rs: `enum Token`. -/
inductive Token where
  | Int
  | Return
  | If
  | Else
  | While
  | Identifier (name : String)
  | Integer (value : Int)
  | String (value : String)
  | Plus
  | Minus
  | Asterisk
  | Slash
  | Assign
  | Equal
  | NotEqual
  | LessThan
  | GreaterThan
  | LParen
  | RParen
  | LBrace
  | RBrace
  | Semicolon
  | Comma
  | EOF
  | Illegal (text : String)
deriving DecidableEq

/-- Rust's `Debug` escaping of the characters that can occur in the
string payloads used here.  (The `\u` escapes Rust produces for other
control characters are not reproduced; no claim inspects such a string.) -/
def rustEscapeChar (c : Char) : String :=
  if c = '"' then "\\\""
  else if c = '\\' then "\\\\"
  else if c = '\n' then "\\n"
  else if c = '\r' then "\\r"
  else if c = '\t' then "\\t"
  else String.singleton c

/-- Rust's `Debug` rendering of a `String` (quoted, escaped). -/
def rustDebugString (s : String) : String :=
  "\"" ++ String.join (s.data.map rustEscapeChar) ++ "\""

/-- Rust's derived `Debug` rendering of a `Token`, as used by
`format!("{:?}", …)` in parser.rs and interpreter.rs. -/
def tokenDebug : Token → String
  | .Int => "Int"
  | .Return => "Return"
  | .If => "If"
  | .Else => "Else"
  | .While => "While"
  | .Identifier s => "Identifier(" ++ rustDebugString s ++ ")"
  | .Integer v => "Integer(" ++ toString v ++ ")"
  | .String s => "String(" ++ rustDebugString s ++ ")"
  | .Plus => "Plus"
  | .Minus => "Minus"
  | .Asterisk => "Asterisk"
  | .Slash => "Slash"
  | .Assign => "Assign"
  | .Equal => "Equal"
  | .NotEqual => "NotEqual"
  | .LessThan => "LessThan"
  | .GreaterThan => "GreaterThan"
  | .LParen => "LParen"
  | .RParen => "RParen"
  | .LBrace => "LBrace"
  | .RBrace => "RBrace"
  | .Semicolon => "Semicolon"
  | .Comma => "Comma"
  | .EOF => "EOF"
  | .Illegal s => "Illegal(" ++ rustDebugString s ++ ")"

/-- token.rs: `Lexer::skip_whitespace`.  (Rust's `char::is_whitespace`
is Unicode; `Char.isWhitespace` covers the ASCII whitespace, which is
all that the verified programs contain.) -/
def skip_whitespace : List Char → List Char
  | [] => []
  | c :: cs => if c.isWhitespace then skip_whitespace cs else c :: cs

/-- token.rs: the string-literal loop of `Lexer::next_token`, entered
after the opening `"` has been consumed.  `acc` is `str_val`.  Returns
the produced token and the input that follows it. -/
def lexString (acc : String) : List Char → Token × List Char
  | [] => (.Illegal "Unterminated string", [])
  | '"' :: cs => (.String acc, cs)
  | '\\' :: [] => (.Illegal "Unterminated string", [])
  | '\\' :: 'n' :: cs2 => lexString (acc.push '\n') cs2
  | '\\' :: 'r' :: cs2 => lexString (acc.push '\r') cs2
  | '\\' :: 't' :: cs2 => lexString (acc.push '\t') cs2
  | '\\' :: '"' :: cs2 => lexString (acc.push '"') cs2
  | '\\' :: '\\' :: cs2 => lexString (acc.push '\\') cs2
  | '\\' :: c :: cs2 => lexString (acc.push '\\') (c :: cs2)
  | c :: cs => lexString (acc.push c) cs

/-- token.rs: the comment skip of `Lexer::next_token` — consume up to,
but not including, the next newline. -/
def skipLineComment : List Char → List Char
  | [] => []
  | c :: cs => if c = '\n' then c :: cs else skipLineComment cs

/-- token.rs: the digit-run loop of `Lexer::next_token`, accumulating
the numeric value.  (Rust parses the digits with `parse::<i64>().unwrap()`,
which panics above `i64::MAX`; the value is unbounded here and the
overflow panic is not modelled — the spec leaves overflow unspecified.) -/
def lexNumber (v : Nat) : List Char → Nat × List Char
  | [] => (v, [])
  | c :: cs =>
    if c.isDigit then lexNumber (v * 10 + (c.toNat - 48)) cs
    else (v, c :: cs)

/-- token.rs: the identifier-run loop of `Lexer::next_token`. -/
def lexIdent (acc : String) : List Char → String × List Char
  | [] => (acc, [])
  | c :: cs =>
    if c.isAlphanum || c = '_' then lexIdent (acc.push c) cs
    else (acc, c :: cs)

/-- token.rs: the keyword table at the end of the identifier arm. -/
def lookupIdent (s : String) : Token :=
  if s = "int" then .Int
  else if s = "return" then .Return
  else if s = "if" then .If
  else if s = "else" then .Else
  else if s = "while" then .While
  else .Identifier s

/-- token.rs: `Lexer::next_token`.  The fuel bounds the number of
line-comment restarts (each consumes at least one character, so any
fuel above the input length is enough); `none` is fuel exhaustion. -/
def next_token : Nat → List Char → Option (Token × List Char)
  | 0, _ => none
  | fuel + 1, input =>
    match skip_whitespace input with
    | [] => some (.EOF, [])
    | c :: cs =>
      if c = '=' then
        match cs with
        | '=' :: cs2 => some (.Equal, cs2)
        | _ => some (.Assign, cs)
      else if c = '"' then some (lexString "" cs)
      else if c = '!' then
        match cs with
        | '=' :: cs2 => some (.NotEqual, cs2)
        | _ => some (.Illegal (String.singleton c), cs)
      else if c = '+' then some (.Plus, cs)
      else if c = '-' then some (.Minus, cs)
      else if c = '*' then some (.Asterisk, cs)
      else if c = '/' then
        match cs with
        | '/' :: cs2 => next_token fuel (skipLineComment ('/' :: cs2))
        | _ => some (.Slash, cs)
      else if c = '<' then some (.LessThan, cs)
      else if c = '>' then some (.GreaterThan, cs)
      else if c = '(' then some (.LParen, cs)
      else if c = ')' then some (.RParen, cs)
      else if c = '{' then some (.LBrace, cs)
      else if c = '}' then some (.RBrace, cs)
      else if c = ';' then some (.Semicolon, cs)
      else if c = ',' then some (.Comma, cs)
      else if c.isDigit then
        match lexNumber (c.toNat - 48) cs with
        | (v, rest) => some (.Integer (Int.ofNat v), rest)
      else if c.isAlpha || c = '_' then
        match lexIdent (String.singleton c) cs with
        | (s, rest) => some (lookupIdent s, rest)
      else some (.Illegal (String.singleton c), cs)

/-- The finite token stream of a source text: `next_token` applied until
it yields `EOF` (which the Rust lexer then produces forever; the parser
model below reads an exhausted list as a constant `EOF` stream). -/
def tokenize : Nat → List Char → Option (List Token)
  | 0, _ => none
  | fuel + 1, cs =>
    match next_token (fuel + 1) cs with
    | none => none
    | some (t, rest) =>
      if t = .EOF then some []
      else
        match tokenize fuel rest with
        | none => none
        | some ts => some (t :: ts)

/-- ast.rs: `enum Expression`. -/
inductive Expression where
  | Identifier (name : String)
  | Integer (value : Int)
  | String (value : String)
  | Boolean (value : Bool)
  | Prefix (operator : Token) (right : Expression)
  | Infix (left : Expression) (operator : Token) (right : Expression)
  | Call (function : Expression) (arguments : List Expression)

/-- ast.rs: `enum Statement`. -/
inductive Statement where
  | Let (name : String) (value : Expression)
  | Return (value : Expression)
  | Expression (value : Expression)
  | Block (statements : List Statement)
  | If (condition : Expression) (consequence : Statement)
       (alternative : Option Statement)
  | While (condition : Expression) (body : Statement)
  | Function (name : String) (params : List String) (body : Statement)

mutual

/-- The derived `PartialEq` of ast.rs on `Expression` (structural). -/
def exprBeq : Expression → Expression → Bool
  | .Identifier a, .Identifier b => a == b
  | .Integer a, .Integer b => a == b
  | .String a, .String b => a == b
  | .Boolean a, .Boolean b => a == b
  | .Prefix op1 r1, .Prefix op2 r2 => op1 == op2 && exprBeq r1 r2
  | .Infix l1 op1 r1, .Infix l2 op2 r2 =>
      exprBeq l1 l2 && op1 == op2 && exprBeq r1 r2
  | .Call f1 a1, .Call f2 a2 => exprBeq f1 f2 && exprsBeq a1 a2
  | _, _ => false

/-- The derived `PartialEq` on `Vec<Expression>`. -/
def exprsBeq : List Expression → List Expression → Bool
  | [], [] => true
  | x :: xs, y :: ys => exprBeq x y && exprsBeq xs ys
  | _, _ => false

end

mutual

/-- The derived `PartialEq` of ast.rs on `Statement` (structural). -/
def stmtBeq : Statement → Statement → Bool
  | .Let n1 v1, .Let n2 v2 => n1 == n2 && exprBeq v1 v2
  | .Return e1, .Return e2 => exprBeq e1 e2
  | .Expression e1, .Expression e2 => exprBeq e1 e2
  | .Block s1, .Block s2 => stmtsBeq s1 s2
  | .If c1 t1 a1, .If c2 t2 a2 =>
      exprBeq c1 c2 && stmtBeq t1 t2 && stmtOptBeq a1 a2
  | .While c1 b1, .While c2 b2 => exprBeq c1 c2 && stmtBeq b1 b2
  | .Function n1 p1 b1, .Function n2 p2 b2 =>
      n1 == n2 && p1 == p2 && stmtBeq b1 b2
  | _, _ => false

/-- The derived `PartialEq` on `Vec<Statement>`. -/
def stmtsBeq : List Statement → List Statement → Bool
  | [], [] => true
  | x :: xs, y :: ys => stmtBeq x y && stmtsBeq xs ys
  | _, _ => false

/-- The derived `PartialEq` on `Option<Box<Statement>>`. -/
def stmtOptBeq : Option Statement → Option Statement → Bool
  | none, none => true
  | some a, some b => stmtBeq a b
  | _, _ => false

end

/-- parser.rs: `enum Precedence` (the discriminants follow declaration
order, as Rust's derived `PartialOrd` compares them). -/
inductive Precedence where
  | Lowest
  | Equals
  | LessGreater
  | Sum
  | Product
  | Prefix
  | Call
deriving DecidableEq

/-- The numeric rank behind the derived `PartialOrd` of `Precedence`. -/
def Precedence.rank : Precedence → Nat
  | .Lowest => 0
  | .Equals => 1
  | .LessGreater => 2
  | .Sum => 3
  | .Product => 4
  | .Prefix => 5
  | .Call => 6

/-- Rust's `<` on `Precedence` (derived `PartialOrd`). -/
def precLt (a b : Precedence) : Bool := a.rank < b.rank

/-- parser.rs: `token_precedence`. -/
def token_precedence : Token → Precedence
  | .Equal | .NotEqual => .Equals
  | .LessThan | .GreaterThan => .LessGreater
  | .Plus | .Minus => .Sum
  | .Asterisk | .Slash => .Product
  | .LParen => .Call
  | _ => .Lowest

/-- parser.rs: the mutable state of `Parser` — the not-yet-read tail of
the token stream (an exhausted tail reads as a constant `EOF` stream),
`cur_token`, `peek_token` and the error list. -/
structure PState where
  rest : List Token
  cur : Token
  peek : Token
  errors : List String
deriving DecidableEq

/-- parser.rs: `Parser::new` — prime `cur_token` and `peek_token` with
the first two tokens. -/
def pInit (tokens : List Token) : PState :=
  match tokens with
  | [] => ⟨[], .EOF, .EOF, []⟩
  | [t] => ⟨[], t, .EOF, []⟩
  | t1 :: t2 :: rest => ⟨rest, t1, t2, []⟩

/-- parser.rs: `Parser::next_token` — shift the one-token lookahead. -/
def pAdvance (p : PState) : PState :=
  match p.rest with
  | [] => ⟨[], p.peek, .EOF, p.errors⟩
  | t :: ts => ⟨ts, p.peek, t, p.errors⟩

/-- parser.rs: `Parser::expect_peek` — advance past an expected token,
or record `"Expected …, got …"` and fail. -/
def expect_peek (p : PState) (expected : Token) : Bool × PState :=
  if p.peek = expected then (true, pAdvance p)
  else
    (false,
     ⟨p.rest, p.cur, p.peek,
      p.errors ++
        ["Expected " ++ tokenDebug expected ++ ", got " ++ tokenDebug p.peek]⟩)

mutual

/-- parser.rs: `Parser::parse_program` — parse statements until `EOF`,
dropping the `None` results of failed statement parses. -/
def parse_program : Nat → PState → Option (List Statement × PState)
  | 0, _ => none
  | fuel + 1, p =>
    if p.cur = .EOF then some ([], p)
    else
      match parse_statement fuel p with
      | none => none
      | some (stmtOpt, p1) =>
        match parse_program fuel (pAdvance p1) with
        | none => none
        | some (rest, p2) =>
          match stmtOpt with
          | some s => some (s :: rest, p2)
          | none => some (rest, p2)

/-- parser.rs: `Parser::parse_statement` (dispatch on `cur_token`). -/
def parse_statement : Nat → PState → Option (Option Statement × PState)
  | 0, _ => none
  | fuel + 1, p =>
    match p.cur with
    | .Int =>
      match p.peek with
      | .Identifier _ => parse_let_statement fuel p
      | _ => some (none, p)
    | .Return => parse_return_statement fuel p
    | .LBrace =>
      match parse_block_statement fuel p with
      | none => none
      | some (stmts, p1) => some (some (.Block stmts), p1)
    | .If => parse_if_statement fuel p
    | .While => parse_while_statement fuel p
    | _ => parse_expression_statement fuel p

/-- parser.rs: `Parser::parse_let_statement` (also detects a function
declaration when the identifier is followed by `(`). -/
def parse_let_statement : Nat → PState → Option (Option Statement × PState)
  | 0, _ => none
  | fuel + 1, p =>
    let p1 := pAdvance p
    match p1.cur with
    | .Identifier name =>
      if p1.peek = .LParen then parse_function_statement fuel name p1
      else
        match expect_peek p1 .Assign with
        | (false, p2) => some (none, p2)
        | (true, p2) =>
          let p3 := pAdvance p2
          match parse_expression fuel .Lowest p3 with
          | none => none
          | some (none, p4) => some (none, p4)
          | some (some value, p4) =>
            let p5 := if p4.peek = .Semicolon then pAdvance p4 else p4
            some (some (.Let name value), p5)
    | _ => some (none, p1)

/-- parser.rs: `Parser::parse_function_statement`. -/
def parse_function_statement :
    Nat → String → PState → Option (Option Statement × PState)
  | 0, _, _ => none
  | fuel + 1, name, p =>
    let p1 := pAdvance p
    match parse_function_parameters fuel p1 with
    | none => none
    | some (none, p2) => some (none, p2)
    | some (some params, p2) =>
      match expect_peek p2 .LBrace with
      | (false, p3) => some (none, p3)
      | (true, p3) =>
        match parse_block_statement fuel p3 with
        | none => none
        | some (stmts, p4) =>
          some (some (.Function name params (.Block stmts)), p4)

/-- parser.rs: `Parser::parse_function_parameters`. -/
def parse_function_parameters :
    Nat → PState → Option (Option (List String) × PState)
  | 0, _ => none
  | fuel + 1, p =>
    if p.peek = .RParen then some (some [], pAdvance p)
    else
      match params_loop fuel (pAdvance p) with
      | none => none
      | some (none, p2) => some (none, p2)
      | some (some ids, p2) =>
        match expect_peek p2 .RParen with
        | (false, p3) => some (none, p3)
        | (true, p3) => some (some ids, p3)

/-- parser.rs: the `loop` inside `parse_function_parameters`, reading
`int <identifier>` pairs separated by commas. -/
def params_loop : Nat → PState → Option (Option (List String) × PState)
  | 0, _ => none
  | fuel + 1, p =>
    match p.cur with
    | .Int =>
      let p1 := pAdvance p
      match p1.cur with
      | .Identifier ident =>
        if p1.peek = .Comma then
          match params_loop fuel (pAdvance (pAdvance p1)) with
          | none => none
          | some (none, p2) => some (none, p2)
          | some (some rest, p2) => some (some (ident :: rest), p2)
        else some (some [ident], p1)
      | _ => some (none, p1)
    | _ => some (none, p)

/-- parser.rs: `Parser::parse_return_statement`. -/
def parse_return_statement : Nat → PState → Option (Option Statement × PState)
  | 0, _ => none
  | fuel + 1, p =>
    let p1 := pAdvance p
    match parse_expression fuel .Lowest p1 with
    | none => none
    | some (none, p2) => some (none, p2)
    | some (some value, p2) =>
      let p3 := if p2.peek = .Semicolon then pAdvance p2 else p2
      some (some (.Return value), p3)

/-- parser.rs: `Parser::parse_block_statement` — `cur_token` is `{`;
consume it and collect statements until `}` or `EOF`. -/
def parse_block_statement : Nat → PState → Option (List Statement × PState)
  | 0, _ => none
  | fuel + 1, p => block_loop fuel (pAdvance p)

/-- parser.rs: the `while` loop inside `parse_block_statement`. -/
def block_loop : Nat → PState → Option (List Statement × PState)
  | 0, _ => none
  | fuel + 1, p =>
    if p.cur = .RBrace ∨ p.cur = .EOF then some ([], p)
    else
      match parse_statement fuel p with
      | none => none
      | some (stmtOpt, p1) =>
        match block_loop fuel (pAdvance p1) with
        | none => none
        | some (rest, p2) =>
          match stmtOpt with
          | some s => some (s :: rest, p2)
          | none => some (rest, p2)

/-- parser.rs: `Parser::parse_if_statement`. -/
def parse_if_statement : Nat → PState → Option (Option Statement × PState)
  | 0, _ => none
  | fuel + 1, p =>
    match expect_peek p .LParen with
    | (false, p1) => some (none, p1)
    | (true, p1) =>
      match parse_expression fuel .Lowest (pAdvance p1) with
      | none => none
      | some (none, p3) => some (none, p3)
      | some (some condition, p3) =>
        match expect_peek p3 .RParen with
        | (false, p4) => some (none, p4)
        | (true, p4) =>
          match expect_peek p4 .LBrace with
          | (false, p5) => some (none, p5)
          | (true, p5) =>
            match parse_block_statement fuel p5 with
            | none => none
            | some (cons, p6) =>
              if p6.peek = .Else then
                match expect_peek (pAdvance p6) .LBrace with
                | (false, p8) => some (none, p8)
                | (true, p8) =>
                  match parse_block_statement fuel p8 with
                  | none => none
                  | some (alt, p9) =>
                    some (some (.If condition (.Block cons)
                                  (some (.Block alt))), p9)
              else some (some (.If condition (.Block cons) none), p6)

/-- parser.rs: `Parser::parse_while_statement`. -/
def parse_while_statement : Nat → PState → Option (Option Statement × PState)
  | 0, _ => none
  | fuel + 1, p =>
    match expect_peek p .LParen with
    | (false, p1) => some (none, p1)
    | (true, p1) =>
      match parse_expression fuel .Lowest (pAdvance p1) with
      | none => none
      | some (none, p3) => some (none, p3)
      | some (some condition, p3) =>
        match expect_peek p3 .RParen with
        | (false, p4) => some (none, p4)
        | (true, p4) =>
          match expect_peek p4 .LBrace with
          | (false, p5) => some (none, p5)
          | (true, p5) =>
            match parse_block_statement fuel p5 with
            | none => none
            | some (body, p6) =>
              some (some (.While condition (.Block body)), p6)

/-- parser.rs: `Parser::parse_expression_statement`. -/
def parse_expression_statement :
    Nat → PState → Option (Option Statement × PState)
  | 0, _ => none
  | fuel + 1, p =>
    match parse_expression fuel .Lowest p with
    | none => none
    | some (none, p1) => some (none, p1)
    | some (some expr, p1) =>
      let p2 := if p1.peek = .Semicolon then pAdvance p1 else p1
      some (some (.Expression expr), p2)

/-- parser.rs: `Parser::parse_expression` — the prefix position, then
the infix/call continuation loop. -/
def parse_expression :
    Nat → Precedence → PState → Option (Option Expression × PState)
  | 0, _, _ => none
  | fuel + 1, precedence, p =>
    match p.cur with
    | .Identifier i => infix_loop fuel precedence (.Identifier i) p
    | .Integer i => infix_loop fuel precedence (.Integer i) p
    | .String s => infix_loop fuel precedence (.String s) p
    | .Minus =>
      let op := p.cur
      match parse_expression fuel .Prefix (pAdvance p) with
      | none => none
      | some (none, p2) => some (none, p2)
      | some (some right, p2) =>
        infix_loop fuel precedence (.Prefix op right) p2
    | .LParen =>
      match parse_expression fuel .Lowest (pAdvance p) with
      | none => none
      | some (none, p2) => some (none, p2)
      | some (some expr, p2) =>
        match expect_peek p2 .RParen with
        | (false, p3) => some (none, p3)
        | (true, p3) => infix_loop fuel precedence expr p3
    | _ => some (none, p)

/-- parser.rs: the `while` loop at the end of `parse_expression`,
continuing while the lookahead binds tighter than `precedence`. -/
def infix_loop :
    Nat → Precedence → Expression → PState →
    Option (Option Expression × PState)
  | 0, _, _, _ => none
  | fuel + 1, precedence, left, p =>
    if p.peek ≠ .Semicolon ∧ precLt precedence (token_precedence p.peek) then
      match p.peek with
      | .LParen =>
        match parse_call_expression fuel left (pAdvance p) with
        | none => none
        | some (none, p2) => some (none, p2)
        | some (some newLeft, p2) => infix_loop fuel precedence newLeft p2
      | .Plus | .Minus | .Slash | .Asterisk
      | .Equal | .NotEqual | .LessThan | .GreaterThan =>
        let p1 := pAdvance p
        let op := p1.cur
        match parse_expression fuel (token_precedence op) (pAdvance p1) with
        | none => none
        | some (none, p3) => some (none, p3)
        | some (some right, p3) =>
          infix_loop fuel precedence (.Infix left op right) p3
      | _ => some (some left, p)
    else some (some left, p)

/-- parser.rs: `Parser::parse_call_expression` — `cur_token` is `(`. -/
def parse_call_expression :
    Nat → Expression → PState → Option (Option Expression × PState)
  | 0, _, _ => none
  | fuel + 1, function, p =>
    if p.peek = .RParen then
      some (some (.Call function []), pAdvance p)
    else
      match parse_expression fuel .Lowest (pAdvance p) with
      | none => none
      | some (none, p2) => some (none, p2)
      | some (some first, p2) =>
        match call_args_loop fuel p2 with
        | none => none
        | some (none, p3) => some (none, p3)
        | some (some rest, p3) =>
          match expect_peek p3 .RParen with
          | (false, p4) => some (none, p4)
          | (true, p4) => some (some (.Call function (first :: rest)), p4)

/-- parser.rs: the `while peek == Comma` loop inside
`parse_call_expression`. -/
def call_args_loop : Nat → PState → Option (Option (List Expression) × PState)
  | 0, _ => none
  | fuel + 1, p =>
    if p.peek = .Comma then
      match parse_expression fuel .Lowest (pAdvance (pAdvance p)) with
      | none => none
      | some (none, p2) => some (none, p2)
      | some (some e, p2) =>
        match call_args_loop fuel p2 with
        | none => none
        | some (none, p3) => some (none, p3)
        | some (some rest, p3) => some (some (e :: rest), p3)
    else some (some [], p)

end

/-- Lex then parse a source text (the lexing fuel `length + 1` always
suffices: every token and comment consumes at least one character). -/
def parseSource (fuel : Nat) (src : String) :
    Option (List Statement × PState) :=
  match tokenize (src.length + 1) src.data with
  | none => none
  | some toks => parse_program fuel (pInit toks)

/-- env.rs: `enum Object`.  `Function` carries its captured environment
as an arena index; `Builtin` carries the registered name standing for
the Rust function pointer; `File` carries an opaque handle id (no claim
inspects a file handle). -/
inductive Object where
  | Integer (value : Int)
  | String (value : String)
  | Boolean (value : Bool)
  | Function (params : List String) (body : Statement) (env : Nat)
  | Builtin (name : String)
  | File (handle : Nat)
  | Null
  | ReturnValue (value : Object)
  | Error (message : String)

/-- env.rs: `impl PartialEq for Object` — by contents for the scalar
variants, params-and-body only for `Function` (environment ignored),
and constantly `false` on `Builtin` and `File`. -/
def objectEq : Object → Object → Bool
  | .Integer l, .Integer r => l == r
  | .String l, .String r => l == r
  | .Boolean l, .Boolean r => l == r
  | .Function p1 b1 _, .Function p2 b2 _ => p1 == p2 && stmtBeq b1 b2
  | .Builtin _, .Builtin _ => false
  | .File _, .File _ => false
  | .Null, .Null => true
  | .ReturnValue l, .ReturnValue r => objectEq l r
  | .Error l, .Error r => l == r
  | _, _ => false

/-- env.rs: `Object::inspect`. -/
def inspect : Object → String
  | .Integer v => toString v
  | .String v => v
  | .Boolean v => if v then "true" else "false"
  | .Function params _ _ =>
      "fn(" ++ String.intercalate ", " params ++ ") \x7b ... \x7d"
  | .Builtin _ => "builtin function"
  | .File _ => "file"
  | .Null => "null"
  | .ReturnValue v => inspect v
  | .Error msg => "ERROR: " ++ msg

/-- Rust's derived `Debug` rendering of an `Object`, used by the
evaluator's `"unknown operator"`, `"type mismatch"` and
`"not a function"` messages.  The `Function`, `Builtin` and `File`
payloads (AST, environment, pointers) are abbreviated: no claim
inspects a debug string of those variants. -/
def objectDebug : Object → String
  | .Integer v => "Integer(" ++ toString v ++ ")"
  | .String s => "String(" ++ rustDebugString s ++ ")"
  | .Boolean b => "Boolean(" ++ (if b then "true" else "false") ++ ")"
  | .Function _ _ _ => "Function(...)"
  | .Builtin _ => "Builtin(...)"
  | .File _ => "File(...)"
  | .Null => "Null"
  | .ReturnValue v => "ReturnValue(" ++ objectDebug v ++ ")"
  | .Error m => "Error(" ++ rustDebugString m ++ ")"

/-- env.rs: one `Environment` record — its own store and the optional
index of the outer environment in the arena. -/
structure EnvData where
  store : List (String × Object)
  outer : Option Nat

/-- The arena holding every allocated `Environment`. -/
abbrev Heap := List EnvData

/-- `HashMap::get` on a store kept duplicate-free by `storeSet`. -/
def storeGet : List (String × Object) → String → Option Object
  | [], _ => none
  | (k, v) :: rest, name => if k = name then some v else storeGet rest name

/-- `HashMap::insert`: replace the binding if the key is present,
append it otherwise. -/
def storeSet : List (String × Object) → String → Object →
    List (String × Object)
  | [], name, val => [(name, val)]
  | (k, v) :: rest, name, val =>
    if k = name then (name, val) :: rest
    else (k, v) :: storeSet rest name val

/-- env.rs: the recursion of `Environment::get` along the outer chain.
The gas argument only makes the recursion structural: `new_enclosed`
always links a new environment to an already-allocated one, so a chain
is never longer than the arena and the gas never runs out in an
evaluator-produced heap. -/
def envGetAux : Nat → Heap → Nat → String → Option Object
  | 0, _, _, _ => none
  | gas + 1, heap, idx, name =>
    match heap[idx]? with
    | none => none
    | some e =>
      match storeGet e.store name with
      | some v => some v
      | none =>
        match e.outer with
        | some o => envGetAux gas heap o name
        | none => none

/-- env.rs: `Environment::get`. -/
def envGet (heap : Heap) (idx : Nat) (name : String) : Option Object :=
  envGetAux heap.length heap idx name

/-- env.rs: `Environment::set` on the environment at `idx` (always the
current scope's own store). -/
def envSet (heap : Heap) (idx : Nat) (name : String) (val : Object) : Heap :=
  match heap[idx]? with
  | none => heap
  | some e => heap.set idx ⟨storeSet e.store name val, e.outer⟩

/-- interpreter.rs: the parameter binding loop of the `Call` arm —
`enclosed.set(param, arg)` over `params.iter().zip(args)`. -/
def bindParams (params : List String) (args : List Object) :
    List (String × Object) :=
  (params.zip args).foldl (fun st pa => storeSet st pa.1 pa.2) []

/-- interpreter.rs: the `ReturnValue` unwrap at the end of the `Call`
arm. -/
def unwrapReturn : Object → Object
  | .ReturnValue v => v
  | r => r

/-- interpreter.rs: `Interpreter::is_error`. -/
def is_error : Object → Bool
  | .Error _ => true
  | _ => false

/-- interpreter.rs: `Interpreter::is_truthy`. -/
def is_truthy : Object → Bool
  | .Null => false
  | .Boolean v => v
  | .Integer v => v != 0
  | _ => true

/-- interpreter.rs: `Interpreter::eval_prefix_expression`. -/
def eval_prefix_expression (operator : Token) (right : Object) : Object :=
  match operator with
  | .Minus =>
    match right with
    | .Integer v => .Integer (-v)
    | r => .Error ("unknown operator: -" ++ objectDebug r)
  | op => .Error ("unknown operator: " ++ tokenDebug op ++ objectDebug right)

/-- interpreter.rs: `Interpreter::eval_infix_expression`.  `none` models
the Rust panic of `l / r` when `r` is zero (the division is written
unguarded in the source); `Int.tdiv` is Rust's truncated `i64`
division. -/
def eval_infix_expression (operator : Token) (left right : Object) :
    Option Object :=
  match left, right with
  | .Integer l, .Integer r =>
    match operator with
    | .Plus => some (.Integer (l + r))
    | .Minus => some (.Integer (l - r))
    | .Asterisk => some (.Integer (l * r))
    | .Slash => if r = 0 then none else some (.Integer (Int.tdiv l r))
    | .LessThan => some (.Boolean (l < r))
    | .GreaterThan => some (.Boolean (l > r))
    | .Equal => some (.Boolean (l == r))
    | .NotEqual => some (.Boolean (l != r))
    | op =>
      some (.Error ("unknown operator: INTEGER " ++ tokenDebug op ++
                    " INTEGER"))
  | .Boolean l, .Boolean r =>
    match operator with
    | .Equal => some (.Boolean (l == r))
    | .NotEqual => some (.Boolean (l != r))
    | op =>
      some (.Error ("unknown operator: BOOLEAN " ++ tokenDebug op ++
                    " BOOLEAN"))
  | l, r =>
    match operator with
    | .Equal => some (.Boolean (objectEq l r))
    | .NotEqual => some (.Boolean (!objectEq l r))
    | op =>
      some (.Error ("type mismatch: " ++ objectDebug l ++ " " ++
                    tokenDebug op ++ " " ++ objectDebug r))

/-- stdlib.rs: the `%`-expansion loop of `format_output`, walking the
format characters with the remaining format arguments. -/
def formatLoop : List Char → List Object → String → String
  | [], _, out => out
  | '%' :: [], _, out => out.push '%'
  | '%' :: next :: rest2, fmtArgs, out =>
    if next = 's' ∨ next = 'd' then
      match fmtArgs with
      | arg :: more => formatLoop rest2 more (out ++ inspect arg)
      | [] => formatLoop rest2 [] ((out.push '%').push next)
    else if next = '%' then formatLoop rest2 fmtArgs (out.push '%')
    else formatLoop (next :: rest2) fmtArgs (out.push '%')
  | c :: rest, fmtArgs, out => formatLoop rest fmtArgs (out.push c)

/-- stdlib.rs: `format_output`.  Empty argument lists give `Ok("")`; a
non-`String` first argument falls back to concatenating every
argument's inspected form; a `String` first argument drives the
`%`-expansion over the remaining arguments. -/
def format_output : List Object → Except String String
  | [] => .ok ""
  | first :: rest =>
    match first with
    | .String s => .ok (formatLoop s.data rest "")
    | _ => .ok (String.join ((first :: rest).map inspect))

/-- stdlib.rs: the `sprintf` builtin. -/
def sprintfBuiltin (args : List Object) : Object :=
  match format_output args with
  | .ok s => .String s
  | .error e => .Error e

/-- stdlib.rs: the `printf` builtin — the returned object together with
the text it prints to standard output. -/
def printfBuiltin (args : List Object) : Object × String :=
  match format_output args with
  | .ok s => (.Null, s)
  | .error e => (.Error e, "")

/-- stdlib.rs / main.rs: the evaluator-visible result of calling a
builtin.  The pure builtins are modelled exactly (printed text
dropped); the host-I/O builtins are replaced by an explicit out-of-model
marker — no verified claim calls one. -/
def applyBuiltin (name : String) (args : List Object) : Object :=
  if name = "puts" then
    if args.length ≠ 1 then
      .Error ("puts expected 1 argument, got " ++ toString args.length)
    else .Null
  else if name = "putchar" then
    if args.length ≠ 1 then .Error "putchar expected 1 argument"
    else .Null
  else if name = "printf" then (printfBuiltin args).1
  else if name = "sprintf" then sprintfBuiltin args
  else if name = "fclose" then .Null
  else .Error ("builtin " ++ name ++ ": host I/O is outside this model")

/-- main.rs / stdlib.rs: the names `register_stdlib` binds, in
registration order. -/
def stdlibNames : List String :=
  ["puts", "putchar", "printf", "sprintf", "fopen", "fclose", "fputs",
   "fputc", "fprintf", "fgets", "fgetc", "feof", "ferror", "ftell",
   "fseek", "rewind", "remove", "rename", "getchar", "getc", "putc"]

/-- main.rs: the bootstrapped global store — the stdlib builtins, then
the constants `null`, `true`, `false` (successive `set`s on an empty
store append in this order). -/
def bootstrapStore : List (String × Object) :=
  (stdlibNames.map fun n => (n, Object.Builtin n)) ++
    [("null", .Null), ("true", .Boolean true), ("false", .Boolean false)]

/-- main.rs: the freshly bootstrapped arena — one global environment. -/
def initialHeap : Heap := [⟨bootstrapStore, none⟩]

mutual

/-- interpreter.rs: `Interpreter::eval_program` — statements in order,
short-circuiting on `ReturnValue` (unwrapped) and `Error`. -/
def eval_program : Nat → List Statement → Nat → Heap →
    Option (Object × Heap)
  | 0, _, _, _ => none
  | fuel + 1, stmts, env, heap =>
    match stmts with
    | [] => some (.Null, heap)
    | s :: rest =>
      match eval_statement fuel s env heap with
      | none => none
      | some (r, h1) =>
        match r with
        | .ReturnValue v => some (v, h1)
        | .Error e => some (.Error e, h1)
        | r' =>
          match rest with
          | [] => some (r', h1)
          | _ :: _ => eval_program fuel rest env h1
termination_by structural fuel _ _ _ => fuel

/-- interpreter.rs: `Interpreter::eval_block` — like `eval_program`
but a `ReturnValue` is passed up unopened. -/
def eval_block : Nat → List Statement → Nat → Heap → Option (Object × Heap)
  | 0, _, _, _ => none
  | fuel + 1, stmts, env, heap =>
    match stmts with
    | [] => some (.Null, heap)
    | s :: rest =>
      match eval_statement fuel s env heap with
      | none => none
      | some (r, h1) =>
        match r with
        | .ReturnValue v => some (.ReturnValue v, h1)
        | .Error e => some (.Error e, h1)
        | r' =>
          match rest with
          | [] => some (r', h1)
          | _ :: _ => eval_block fuel rest env h1
termination_by structural fuel _ _ _ => fuel

/-- interpreter.rs: `Interpreter::eval_statement`. -/
def eval_statement : Nat → Statement → Nat → Heap → Option (Object × Heap)
  | 0, _, _, _ => none
  | fuel + 1, stmt, env, heap =>
    match stmt with
    | .Expression e => eval_expression fuel e env heap
    | .Return e =>
      match eval_expression fuel e env heap with
      | none => none
      | some (v, h1) =>
        if is_error v then some (v, h1) else some (.ReturnValue v, h1)
    | .Let name value =>
      match eval_expression fuel value env heap with
      | none => none
      | some (v, h1) =>
        if is_error v then some (v, h1) else some (v, envSet h1 env name v)
    | .Block stmts => eval_block fuel stmts env heap
    | .If condition consequence alternative =>
      match eval_expression fuel condition env heap with
      | none => none
      | some (c, h1) =>
        if is_error c then some (c, h1)
        else if is_truthy c then eval_statement fuel consequence env h1
        else
          match alternative with
          | some alt => eval_statement fuel alt env h1
          | none => some (.Null, h1)
    | .While condition body =>
      match eval_expression fuel condition env heap with
      | none => none
      | some (c, h1) =>
        if is_error c then some (c, h1)
        else if !is_truthy c then some (.Null, h1)
        else
          match eval_statement fuel body env h1 with
          | none => none
          | some (r, h2) =>
            match r with
            | .ReturnValue v => some (.ReturnValue v, h2)
            | .Error e => some (.Error e, h2)
            | _ => eval_statement fuel (.While condition body) env h2
    | .Function name params body =>
      some (.Function params body env,
            envSet heap env name (.Function params body env))
termination_by structural fuel _ _ _ => fuel

/-- interpreter.rs: `Interpreter::eval_expression`. -/
def eval_expression : Nat → Expression → Nat → Heap → Option (Object × Heap)
  | 0, _, _, _ => none
  | fuel + 1, expr, env, heap =>
    match expr with
    | .Integer v => some (.Integer v, heap)
    | .String v => some (.String v, heap)
    | .Boolean v => some (.Boolean v, heap)
    | .Identifier name =>
      match envGet heap env name with
      | some v => some (v, heap)
      | none => some (.Error ("identifier not found: " ++ name), heap)
    | .Prefix operator right =>
      match eval_expression fuel right env heap with
      | none => none
      | some (rv, h1) =>
        if is_error rv then some (rv, h1)
        else some (eval_prefix_expression operator rv, h1)
    | .Infix left operator right =>
      match eval_expression fuel left env heap with
      | none => none
      | some (lv, h1) =>
        if is_error lv then some (lv, h1)
        else
          match eval_expression fuel right env h1 with
          | none => none
          | some (rv, h2) =>
            if is_error rv then some (rv, h2)
            else
              match eval_infix_expression operator lv rv with
              | none => none
              | some v => some (v, h2)
    | .Call function arguments =>
      match eval_expression fuel function env heap with
      | none => none
      | some (fv, h1) =>
        if is_error fv then some (fv, h1)
        else
          match eval_expressions fuel arguments env h1 with
          | none => none
          | some (.error e, h2) => some (e, h2)
          | some (.ok args, h2) =>
            match fv with
            | .Function params body fenv =>
              if params.length ≠ args.length then
                some (.Error ("wrong number of arguments: want=" ++
                        toString params.length ++ ", got=" ++
                        toString args.length), h2)
              else
                match eval_statement fuel body h2.length
                        (h2 ++ [⟨bindParams params args, some fenv⟩]) with
                | none => none
                | some (r, h3) => some (unwrapReturn r, h3)
            | .Builtin name => some (applyBuiltin name args, h2)
            | other =>
              some (.Error ("not a function: " ++ objectDebug other), h2)
termination_by structural fuel _ _ _ => fuel

/-- interpreter.rs: the argument loop of the `Call` arm — evaluate the
arguments left to right, returning the first `Error` immediately. -/
def eval_expressions : Nat → List Expression → Nat → Heap →
    Option (Except Object (List Object) × Heap)
  | 0, _, _, _ => none
  | fuel + 1, exprs, env, heap =>
    match exprs with
    | [] => some (.ok [], heap)
    | e :: rest =>
      match eval_expression fuel e env heap with
      | none => none
      | some (v, h1) =>
        if is_error v then some (.error v, h1)
        else
          match eval_expressions fuel rest env h1 with
          | none => none
          | some (.error err, h2) => some (.error err, h2)
          | some (.ok vs, h2) => some (.ok (v :: vs), h2)
termination_by structural fuel _ _ _ => fuel

end

/-- main.rs: the driver prints `"Interpreter Result: …"` exactly when
the final value is not `Null` (compared with the `PartialEq` above). -/
def mainPrints (result : Object) : Option String :=
  if objectEq result .Null then none
  else some ("Interpreter Result: " ++ inspect result)

/-! ## The verified properties -/

/-- C1: evaluating `1 / 0` (Integer operands, operator `/`) does not
yield an `Error` value: the unguarded Rust division `l / r` panics, and
the panic is modelled by `none`.  The claimed guard does not exist in
`eval_infix_expression`. -/
theorem div_by_zero_is_a_panic_not_an_error :
    eval_infix_expression .Slash (.Integer 1) (.Integer 0) = none := rfl

/-- The spec's loop program, as source text. -/
def src2 : String := "int i = 0; while (i < 3) { i = i + 1; } i"

/-- What the parser actually produces for the body of the loop in
`src2`: `i = i + 1;` becomes the two expression statements `i` and
`i + 1` — the `=` is dropped without a message, and nothing assigns. -/
def loopBody : Statement :=
  .Block [.Expression (.Identifier "i"),
          .Expression (.Infix (.Identifier "i") .Plus (.Integer 1))]

/-- The loop statement of `src2` as parsed. -/
def whileStmt : Statement :=
  .While (.Infix (.Identifier "i") .LessThan (.Integer 3)) loopBody

/-- The whole of `src2` as parsed. -/
def prog2 : List Statement :=
  [.Let "i" (.Integer 0), whileStmt, .Expression (.Identifier "i")]

/-- The heap after `int i = 0;`: the global store extended with `i`. -/
def heap1 : Heap := envSet initialHeap 0 "i" (.Integer 0)

/-- One loop iteration of `whileStmt` on `heap1` consumes one unit of
fuel and changes nothing: the condition is `true` (`i` stays `0`), the
body's two expression statements yield values that are discarded, and
the heap is untouched. -/
theorem whileStep (j : Nat) :
    eval_statement (j + 7) whileStmt 0 heap1 =
      eval_statement (j + 6) whileStmt 0 heap1 := rfl

/-- `whileStmt` never terminates on `heap1`: at every fuel the
evaluation is still running when the fuel ends. -/
theorem while_diverges : ∀ n, eval_statement n whileStmt 0 heap1 = none := by
  intro n
  induction n with
  | zero => rfl
  | succ m ih =>
    rcases Nat.lt_or_ge m 6 with hm | hm
    · interval_cases m <;> rfl
    · obtain ⟨j, rfl⟩ : ∃ j, m = j + 6 := ⟨m - 6, by omega⟩
      exact (whileStep j).trans ih

/-- C2: the spec's loop program does not evaluate to `Integer 3` — it
does not terminate at all.  The parser accepts the text without error
but has no assignment form: `i = i + 1;` parses as the two statements
`i` and `i + 1` (first conjunct), so the loop body never changes `i`
and `while (i < 3)` spins forever (second conjunct: at every fuel the
evaluation is unfinished). -/
theorem loop_mutation_program_never_terminates :
    parseSource 100 src2 = some (prog2, ⟨[], .EOF, .EOF, []⟩) ∧
      ∀ fuel, eval_program fuel prog2 0 initialHeap = none := by
  refine ⟨rfl, ?_⟩
  intro fuel
  match fuel with
  | 0 => rfl
  | 1 => rfl
  | 2 => rfl
  | k + 3 =>
    have hw : eval_statement (k + 1) whileStmt 0 heap1 = none :=
      while_diverges (k + 1)
    show eval_program (k + 2) [whileStmt, .Expression (.Identifier "i")]
        0 heap1 = none
    simp only [eval_program]
    rw [hw]

/-- The statement calling an unbound name, used for C5. -/
def undefStmt : Statement :=
  .Expression (.Call (.Identifier "undefined_fn") [])

/-- The expression calling an unbound name, used for C5. -/
def undefExpr : Expression := .Call (.Identifier "undefined_fn") []

/-- C5: an `Error` short-circuits every enclosing construct.  With the
erroring fragment `undefined_fn()` in first position: a program returns
the error whatever statements follow; a block does too; an argument
list stops at the first erroring argument whatever arguments follow
(shown inside a real call, so the remaining arguments are never
evaluated); an `if` whose condition errors evaluates neither branch;
a `while` whose condition errors never runs its body; and a `while`
whose body errors on the first iteration stops with that error.  In
each case the result is exactly
`Error "identifier not found: undefined_fn"`, the heap untouched. -/
theorem error_propagation_short_circuits :
    (∀ (k : Nat) (rest : List Statement),
      eval_program (k + 4) (undefStmt :: rest) 0 initialHeap =
        some (.Error "identifier not found: undefined_fn", initialHeap)) ∧
    (∀ (k : Nat) (rest : List Statement),
      eval_block (k + 4) (undefStmt :: rest) 0 initialHeap =
        some (.Error "identifier not found: undefined_fn", initialHeap)) ∧
    (∀ (k : Nat) (rest : List Expression),
      eval_expression (k + 4)
          (.Call (.Identifier "puts") (.Identifier "undefined_fn" :: rest))
          0 initialHeap =
        some (.Error "identifier not found: undefined_fn", initialHeap)) ∧
    (∀ (k : Nat) (consequence : Statement) (alternative : Option Statement),
      eval_statement (k + 3) (.If undefExpr consequence alternative)
          0 initialHeap =
        some (.Error "identifier not found: undefined_fn", initialHeap)) ∧
    (∀ (k : Nat) (body : Statement),
      eval_statement (k + 3) (.While undefExpr body) 0 initialHeap =
        some (.Error "identifier not found: undefined_fn", initialHeap)) ∧
    (∀ k : Nat,
      eval_statement (k + 6) (.While (.Integer 1) (.Block [undefStmt]))
          0 initialHeap =
        some (.Error "identifier not found: undefined_fn", initialHeap)) :=
  ⟨fun _ _ => rfl, fun _ _ => rfl, fun _ _ => rfl,
   fun _ _ _ => rfl, fun _ _ => rfl, fun _ => rfl⟩

/-- C3 (counterexample): parsing the source `=` attempts one statement
(the input is not at `EOF`), the prefix position of the expression
parser rejects `Assign`, the statement is dropped — and the error list
stays empty.  The second conjunct shows the failing `parse_statement`
call itself: it returns `none` with the parser state, error list
included, completely unchanged. -/
theorem prefix_parse_failure_is_silent :
    parseSource 10 "=" = some ([], ⟨[], .EOF, .EOF, []⟩) ∧
      parse_statement 5 ⟨[], .Assign, .EOF, []⟩ =
        some (none, ⟨[], .Assign, .EOF, []⟩) := ⟨rfl, rfl⟩

/-- C3 (amended): an `expect_peek` failure appends exactly one
`"Expected …, got …"` message and propagates as a dropped node; but a
failure at the prefix position of `parse_expression` (here a statement
starting with `=`) records no message at all — the node is dropped
silently; in both cases parsing continues, as the final conjunct shows:
after silently dropping the bad statement the parser still parses
`int x = 5;` with an empty error list. -/
theorem expect_peek_records_prefix_failures_silent :
    (∀ (p : PState) (expected : Token), p.peek ≠ expected →
      expect_peek p expected =
        (false, ⟨p.rest, p.cur, p.peek,
          p.errors ++ ["Expected " ++ tokenDebug expected ++ ", got " ++
            tokenDebug p.peek]⟩)) ∧
    (∀ (k : Nat) (p : PState), p.cur = .Assign →
      parse_statement (k + 3) p = some (none, p)) ∧
    parseSource 10 "= int x = 5;" =
      some ([.Let "x" (.Integer 5)], ⟨[], .EOF, .EOF, []⟩) := by
  refine ⟨?_, ?_, rfl⟩
  · intro p expected h
    simp [expect_peek, h]
  · intro k p h
    obtain ⟨rest, cur, peek, errors⟩ := p
    simp only at h
    subst h
    rfl

/-- Instance of `expect_peek_records_prefix_failures_silent` at concrete
inputs: a `Semicolon` lookahead where `RParen` was expected records the
exact message, and a statement starting with `Assign` is dropped with
the state untouched. -/
theorem expect_peek_records_prefix_failures_silent_witness :
    ((⟨[], .Semicolon, .Semicolon, []⟩ : PState).peek ≠ .RParen ∧
      expect_peek ⟨[], .Semicolon, .Semicolon, []⟩ .RParen =
        (false, ⟨[], .Semicolon, .Semicolon,
          ["Expected RParen, got Semicolon"]⟩)) ∧
    ((⟨[], .Assign, .EOF, []⟩ : PState).cur = .Assign ∧
      parse_statement 3 ⟨[], .Assign, .EOF, []⟩ =
        some (none, ⟨[], .Assign, .EOF, []⟩)) :=
  ⟨⟨by decide,
    expect_peek_records_prefix_failures_silent.1 _ _ (by decide)⟩,
   ⟨rfl, expect_peek_records_prefix_failures_silent.2.1 0 _ rfl⟩⟩

/-- The body of `outer` in the C4 closure program. -/
def outerBody : Statement :=
  .Block [.Let "x" (.Integer 10),
          .Function "inner" [] (.Block [.Return (.Identifier "x")]),
          .Return (.Identifier "inner")]

/-- The C4 closure program: `inner` is defined inside `outer` and
references `outer`'s local `x = 10`; the returned closure is called
from the global scope, where a different `x = 99` is bound. -/
def prog4 : List Statement :=
  [.Function "outer" [] outerBody,
   .Let "f" (.Call (.Identifier "outer") []),
   .Let "x" (.Integer 99),
   .Expression (.Call (.Identifier "f") [])]

/-- C4: a call whose callee is a `Function` of matching arity allocates
one fresh environment (the next arena index) whose outer link is the
function's captured environment `fenv` — not the caller's `env` —
binds the parameters to the arguments in order, evaluates the body
there and unwraps a `ReturnValue`.  The second conjunct runs the
closure program: the inner function resolves `x` against its defining
scope (`10`), not the calling scope (`99`). -/
theorem call_enters_fresh_child_of_captured_env :
    (∀ (fuel env : Nat) (heap : Heap) (function : Expression)
       (arguments : List Expression) (params : List String)
       (body : Statement) (fenv : Nat) (h1 h2 : Heap) (args : List Object),
      eval_expression fuel function env heap =
          some (.Function params body fenv, h1) →
      eval_expressions fuel arguments env h1 = some (.ok args, h2) →
      params.length = args.length →
      eval_expression (fuel + 1) (.Call function arguments) env heap =
        match eval_statement fuel body h2.length
                (h2 ++ [⟨bindParams params args, some fenv⟩]) with
        | none => none
        | some (r, h3) => some (unwrapReturn r, h3)) ∧
    (eval_program 50 prog4 0 initialHeap).map Prod.fst =
      some (.Integer 10) := by
  refine ⟨?_, rfl⟩
  intro fuel env heap function arguments params body fenv h1 h2 args
    hf hargs hlen
  simp only [eval_expression, hf, is_error, hargs, hlen, ne_eq,
    not_true_eq_false, if_false]
  rfl

/-- A one-function heap for instantiating the call theorems. -/
def heapW : Heap :=
  [⟨[("g", Object.Function ["a"] (.Return (.Identifier "a")) 0)], none⟩]

/-- Instance of `call_enters_fresh_child_of_captured_env` at a concrete
call `g(7)` against `heapW`. -/
theorem call_enters_fresh_child_of_captured_env_witness :
    (eval_expression 2 (.Identifier "g") 0 heapW =
        some (.Function ["a"] (.Return (.Identifier "a")) 0, heapW) ∧
      eval_expressions 2 [.Integer 7] 0 heapW =
        some (.ok [.Integer 7], heapW) ∧
      (["a"] : List String).length = ([.Integer 7] : List Object).length) ∧
    eval_expression 3 (.Call (.Identifier "g") [.Integer 7]) 0 heapW =
      match eval_statement 2 (.Return (.Identifier "a")) heapW.length
              (heapW ++ [⟨bindParams ["a"] [.Integer 7], some 0⟩]) with
      | none => none
      | some (r, h3) => some (unwrapReturn r, h3) :=
  ⟨⟨rfl, rfl, rfl⟩,
   call_enters_fresh_child_of_captured_env.1 2 0 heapW (.Identifier "g")
     [.Integer 7] ["a"] (.Return (.Identifier "a")) 0 heapW heapW
     [.Integer 7] rfl rfl rfl⟩

/-- C6: a call whose callee is a `Function` with `N` parameters applied
to `M` evaluated arguments, `N ≠ M`, yields exactly
`Error "wrong number of arguments: want=N, got=M"`, the heap is the one
after argument evaluation and no environment is allocated — the body is
never entered. -/
theorem arity_mismatch_yields_exact_error :
    ∀ (fuel env : Nat) (heap : Heap) (function : Expression)
      (arguments : List Expression) (params : List String)
      (body : Statement) (fenv : Nat) (h1 h2 : Heap) (args : List Object),
      eval_expression fuel function env heap =
          some (.Function params body fenv, h1) →
      eval_expressions fuel arguments env h1 = some (.ok args, h2) →
      params.length ≠ args.length →
      eval_expression (fuel + 1) (.Call function arguments) env heap =
        some (.Error ("wrong number of arguments: want=" ++
                toString params.length ++ ", got=" ++
                toString args.length), h2) := by
  intro fuel env heap function arguments params body fenv h1 h2 args
    hf hargs hlen
  simp only [eval_expression, hf, is_error, hargs, hlen, ne_eq,
    not_false_eq_true, if_true]
  rfl

/-- A two-parameter function heap for the arity witness. -/
def heapW2 : Heap :=
  [⟨[("g2", Object.Function ["a", "b"] (.Return (.Identifier "a")) 0)],
    none⟩]

/-- Instance of `arity_mismatch_yields_exact_error`: a 2-parameter
function called with 1 argument yields exactly
`Error "wrong number of arguments: want=2, got=1"`. -/
theorem arity_mismatch_yields_exact_error_witness :
    (eval_expression 2 (.Identifier "g2") 0 heapW2 =
        some (.Function ["a", "b"] (.Return (.Identifier "a")) 0,
              heapW2) ∧
      eval_expressions 2 [.Integer 7] 0 heapW2 =
        some (.ok [.Integer 7], heapW2) ∧
      (["a", "b"] : List String).length ≠
        ([.Integer 7] : List Object).length) ∧
    eval_expression 3 (.Call (.Identifier "g2") [.Integer 7]) 0 heapW2 =
      some (.Error "wrong number of arguments: want=2, got=1", heapW2) :=
  ⟨⟨rfl, rfl, by decide⟩,
   arity_mismatch_yields_exact_error 2 0 heapW2 (.Identifier "g2")
     [.Integer 7] ["a", "b"] (.Return (.Identifier "a")) 0 heapW2 heapW2
     [.Integer 7] rfl rfl (by decide)⟩

mutual

/-- `exprBeq` is reflexive. -/
theorem exprBeq_refl : ∀ a : Expression, exprBeq a a = true
  | .Identifier _ => by simp [exprBeq]
  | .Integer _ => by simp [exprBeq]
  | .String _ => by simp [exprBeq]
  | .Boolean _ => by simp [exprBeq]
  | .Prefix op r => by simp [exprBeq, exprBeq_refl r]
  | .Infix l op r => by simp [exprBeq, exprBeq_refl l, exprBeq_refl r]
  | .Call f as => by simp [exprBeq, exprBeq_refl f, exprsBeq_refl as]

/-- `exprsBeq` is reflexive. -/
theorem exprsBeq_refl : ∀ as : List Expression, exprsBeq as as = true
  | [] => by simp [exprsBeq]
  | a :: as => by simp [exprsBeq, exprBeq_refl a, exprsBeq_refl as]

end

mutual

/-- `exprBeq` only accepts equal expressions. -/
theorem exprBeq_sound : ∀ a b : Expression, exprBeq a b = true → a = b
  | .Identifier _, b => by cases b <;> simp [exprBeq]
  | .Integer _, b => by cases b <;> simp [exprBeq]
  | .String _, b => by cases b <;> simp [exprBeq]
  | .Boolean _, b => by cases b <;> simp [exprBeq]
  | .Prefix op r, b => by
    cases b <;> try (simp [exprBeq]; done)
    rename_i op2 r2
    simp only [exprBeq, Bool.and_eq_true, beq_iff_eq, Expression.Prefix.injEq]
    rintro ⟨h1, h2⟩
    exact ⟨h1, exprBeq_sound r r2 h2⟩
  | .Infix l op r, b => by
    cases b <;> try (simp [exprBeq]; done)
    rename_i l2 op2 r2
    simp only [exprBeq, Bool.and_eq_true, beq_iff_eq, Expression.Infix.injEq]
    rintro ⟨⟨h1, h2⟩, h3⟩
    exact ⟨exprBeq_sound l l2 h1, h2, exprBeq_sound r r2 h3⟩
  | .Call f as, b => by
    cases b <;> try (simp [exprBeq]; done)
    rename_i f2 as2
    simp only [exprBeq, Bool.and_eq_true, Expression.Call.injEq]
    rintro ⟨h1, h2⟩
    exact ⟨exprBeq_sound f f2 h1, exprsBeq_sound as as2 h2⟩

/-- `exprsBeq` only accepts equal lists. -/
theorem exprsBeq_sound :
    ∀ as bs : List Expression, exprsBeq as bs = true → as = bs
  | [], [] => by simp
  | [], _ :: _ => by simp [exprsBeq]
  | _ :: _, [] => by simp [exprsBeq]
  | a :: as, b :: bs => by
    simp only [exprsBeq, Bool.and_eq_true, List.cons.injEq]
    rintro ⟨h1, h2⟩
    exact ⟨exprBeq_sound a b h1, exprsBeq_sound as bs h2⟩

end

/-- `exprBeq` decides structural equality of expressions. -/
theorem exprBeq_iff (a b : Expression) : exprBeq a b = true ↔ a = b :=
  ⟨exprBeq_sound a b, fun h => h ▸ exprBeq_refl a⟩

mutual

/-- `stmtBeq` is reflexive. -/
theorem stmtBeq_refl : ∀ s : Statement, stmtBeq s s = true
  | .Let n v => by simp [stmtBeq, exprBeq_refl v]
  | .Return e => by simp [stmtBeq, exprBeq_refl e]
  | .Expression e => by simp [stmtBeq, exprBeq_refl e]
  | .Block ss => by simp [stmtBeq, stmtsBeq_refl ss]
  | .If c t a => by
    simp [stmtBeq, exprBeq_refl c, stmtBeq_refl t, stmtOptBeq_refl a]
  | .While c b => by simp [stmtBeq, exprBeq_refl c, stmtBeq_refl b]
  | .Function n p b => by simp [stmtBeq, stmtBeq_refl b]

/-- `stmtsBeq` is reflexive. -/
theorem stmtsBeq_refl : ∀ ss : List Statement, stmtsBeq ss ss = true
  | [] => by simp [stmtsBeq]
  | s :: ss => by simp [stmtsBeq, stmtBeq_refl s, stmtsBeq_refl ss]

/-- `stmtOptBeq` is reflexive. -/
theorem stmtOptBeq_refl : ∀ so : Option Statement, stmtOptBeq so so = true
  | none => by simp [stmtOptBeq]
  | some s => by simp [stmtOptBeq, stmtBeq_refl s]

end

mutual

/-- `stmtBeq` only accepts equal statements. -/
theorem stmtBeq_sound : ∀ s t : Statement, stmtBeq s t = true → s = t
  | .Let n v, t => by
    cases t <;> try (simp [stmtBeq]; done)
    rename_i n2 v2
    simp only [stmtBeq, Bool.and_eq_true, beq_iff_eq, Statement.Let.injEq]
    rintro ⟨h1, h2⟩
    exact ⟨h1, exprBeq_sound v v2 h2⟩
  | .Return e, t => by
    cases t <;> try (simp [stmtBeq]; done)
    rename_i e2
    simp only [stmtBeq, Statement.Return.injEq]
    exact exprBeq_sound e e2
  | .Expression e, t => by
    cases t <;> try (simp [stmtBeq]; done)
    rename_i e2
    simp only [stmtBeq, Statement.Expression.injEq]
    exact exprBeq_sound e e2
  | .Block ss, t => by
    cases t <;> try (simp [stmtBeq]; done)
    rename_i ss2
    simp only [stmtBeq, Statement.Block.injEq]
    exact stmtsBeq_sound ss ss2
  | .If c th al, t => by
    cases t <;> try (simp [stmtBeq]; done)
    rename_i c2 th2 al2
    simp only [stmtBeq, Bool.and_eq_true, Statement.If.injEq]
    rintro ⟨⟨h1, h2⟩, h3⟩
    exact ⟨exprBeq_sound c c2 h1, stmtBeq_sound th th2 h2,
           stmtOptBeq_sound al al2 h3⟩
  | .While c b, t => by
    cases t <;> try (simp [stmtBeq]; done)
    rename_i c2 b2
    simp only [stmtBeq, Bool.and_eq_true, Statement.While.injEq]
    rintro ⟨h1, h2⟩
    exact ⟨exprBeq_sound c c2 h1, stmtBeq_sound b b2 h2⟩
  | .Function n p b, t => by
    cases t <;> try (simp [stmtBeq]; done)
    rename_i n2 p2 b2
    simp only [stmtBeq, Bool.and_eq_true, beq_iff_eq,
      Statement.Function.injEq]
    rintro ⟨⟨h1, h2⟩, h3⟩
    exact ⟨h1, h2, stmtBeq_sound b b2 h3⟩

/-- `stmtsBeq` only accepts equal lists. -/
theorem stmtsBeq_sound :
    ∀ ss ts : List Statement, stmtsBeq ss ts = true → ss = ts
  | [], [] => by simp
  | [], _ :: _ => by simp [stmtsBeq]
  | _ :: _, [] => by simp [stmtsBeq]
  | s :: ss, t :: ts => by
    simp only [stmtsBeq, Bool.and_eq_true, List.cons.injEq]
    rintro ⟨h1, h2⟩
    exact ⟨stmtBeq_sound s t h1, stmtsBeq_sound ss ts h2⟩

/-- `stmtOptBeq` only accepts equal options. -/
theorem stmtOptBeq_sound :
    ∀ so so2 : Option Statement, stmtOptBeq so so2 = true → so = so2
  | none, none => by simp
  | none, some _ => by simp [stmtOptBeq]
  | some _, none => by simp [stmtOptBeq]
  | some s, some t => by
    simp only [stmtOptBeq, Option.some.injEq]
    exact stmtBeq_sound s t

end

/-- `stmtBeq` decides structural equality of statements. -/
theorem stmtBeq_iff (s t : Statement) : stmtBeq s t = true ↔ s = t :=
  ⟨stmtBeq_sound s t, fun h => h ▸ stmtBeq_refl s⟩

/-- C7: `objectEq` compares `Integer`, `String`, `Boolean`, `Null` and
`Error` by contents; two `Function`s are equal exactly when their
parameter lists and bodies are equal — the captured environments `e1`
and `e2` are unconstrained; and any pair with a `Builtin` or a `File`
on either side is unequal, so no `Builtin` or `File` equals itself. -/
theorem object_equality_matches_spec :
    (∀ l r : Int, objectEq (.Integer l) (.Integer r) = true ↔ l = r) ∧
    (∀ l r : String, objectEq (.String l) (.String r) = true ↔ l = r) ∧
    (∀ l r : Bool, objectEq (.Boolean l) (.Boolean r) = true ↔ l = r) ∧
    objectEq .Null .Null = true ∧
    (∀ l r : String, objectEq (.Error l) (.Error r) = true ↔ l = r) ∧
    (∀ (p1 : List String) (b1 : Statement) (e1 : Nat) (p2 : List String)
        (b2 : Statement) (e2 : Nat),
      objectEq (.Function p1 b1 e1) (.Function p2 b2 e2) = true ↔
        p1 = p2 ∧ b1 = b2) ∧
    (∀ (x : Object) (n : String),
      objectEq (.Builtin n) x = false ∧ objectEq x (.Builtin n) = false) ∧
    (∀ (x : Object) (hdl : Nat),
      objectEq (.File hdl) x = false ∧ objectEq x (.File hdl) = false) := by
  refine ⟨?_, ?_, ?_, rfl, ?_, ?_, ?_, ?_⟩
  · intro l r; simp [objectEq]
  · intro l r; simp [objectEq]
  · intro l r; simp [objectEq]
  · intro l r; simp [objectEq]
  · intro p1 b1 e1 p2 b2 e2; simp [objectEq, stmtBeq_iff]
  · intro x n
    exact ⟨by cases x <;> simp [objectEq],
           by cases x <;> simp [objectEq]⟩
  · intro x hdl
    exact ⟨by cases x <;> simp [objectEq],
           by cases x <;> simp [objectEq]⟩

/-- An unclosed string literal never produces a `String` token: with no
`"` left in the input, the loop runs off the end and yields exactly
`Illegal("Unterminated string")` with the input consumed. -/
theorem lexString_unterminated :
    ∀ (cs : List Char) (acc : String), '"' ∉ cs →
      lexString acc cs = (.Illegal "Unterminated string", [])
  | [], _, _ => rfl
  | c :: cs, acc, h => by
    have hq : c ≠ '"' := fun e => h (by simp [e])
    have hcs : '"' ∉ cs := fun hm => h (by simp [hm])
    by_cases hb : c = '\\'
    · subst hb
      cases cs with
      | nil => rfl
      | cons c2 cs2 =>
        have hq2 : c2 ≠ '"' := fun e => hcs (by simp [e])
        have hcs2 : '"' ∉ cs2 := fun hm => hcs (by simp [hm])
        by_cases hn : c2 = 'n'
        · subst hn; exact lexString_unterminated cs2 _ hcs2
        by_cases hr : c2 = 'r'
        · subst hr; exact lexString_unterminated cs2 _ hcs2
        by_cases ht : c2 = 't'
        · subst ht; exact lexString_unterminated cs2 _ hcs2
        by_cases hb2 : c2 = '\\'
        · subst hb2; exact lexString_unterminated cs2 _ hcs2
        · rw [show lexString acc ('\\' :: c2 :: cs2) =
                lexString (acc.push '\\') (c2 :: cs2) from by
              simp [lexString, hn, hr, ht, hq2, hb2]]
          exact lexString_unterminated (c2 :: cs2) _ hcs
    · rw [show lexString acc (c :: cs) = lexString (acc.push c) cs from by
          simp [lexString, hq, hb]]
      exact lexString_unterminated cs _ hcs

/-- C8: the string-literal arm of the lexer.  In order: a `"` closes
the literal with the accumulated text; the escapes `\n \r \t \" \\`
decode to their characters; any other escape keeps the backslash
literally and leaves the following character to be processed normally
(it is still at the head of the remaining input); reaching end of
input before a closing `"` yields exactly
`Illegal("Unterminated string")`; and two whole-token examples —
`"a\nb\xc"` decodes to `a`, newline, `b`, backslash-`x` passed
through, `c`, while the unclosed `"abc` is `Illegal`. -/
theorem string_literal_lexing :
    (∀ (acc : String) (cs : List Char),
      lexString acc ('"' :: cs) = (.String acc, cs)) ∧
    (∀ (acc : String) (cs : List Char),
      lexString acc ('\\' :: 'n' :: cs) = lexString (acc.push '\n') cs) ∧
    (∀ (acc : String) (cs : List Char),
      lexString acc ('\\' :: 'r' :: cs) = lexString (acc.push '\r') cs) ∧
    (∀ (acc : String) (cs : List Char),
      lexString acc ('\\' :: 't' :: cs) = lexString (acc.push '\t') cs) ∧
    (∀ (acc : String) (cs : List Char),
      lexString acc ('\\' :: '"' :: cs) = lexString (acc.push '"') cs) ∧
    (∀ (acc : String) (cs : List Char),
      lexString acc ('\\' :: '\\' :: cs) = lexString (acc.push '\\') cs) ∧
    (∀ (acc : String) (c : Char) (cs : List Char),
      c ≠ 'n' → c ≠ 'r' → c ≠ 't' → c ≠ '"' → c ≠ '\\' →
      lexString acc ('\\' :: c :: cs) =
        lexString (acc.push '\\') (c :: cs)) ∧
    (∀ (cs : List Char) (acc : String), '"' ∉ cs →
      lexString acc cs = (.Illegal "Unterminated string", [])) ∧
    next_token 10 "\"a\\nb\\xc\"".data =
      some (.String "a\nb\\xc", []) ∧
    next_token 10 "\"abc".data =
      some (.Illegal "Unterminated string", []) := by
  refine ⟨fun _ _ => rfl, fun _ _ => rfl, fun _ _ => rfl, fun _ _ => rfl,
    fun _ _ => rfl, fun _ _ => rfl, ?_, lexString_unterminated, rfl, rfl⟩
  intro acc c cs h1 h2 h3 h4 h5
  simp [lexString, h1, h2, h3, h4, h5]

/-- Instance of `string_literal_lexing` at concrete inputs: the unknown
escape `\x` keeps its backslash with `x` left in place, and the
quoteless input `a\` is an unterminated literal. -/
theorem string_literal_lexing_witness :
    (('x' : Char) ≠ 'n' ∧ ('x' : Char) ≠ 'r' ∧ ('x' : Char) ≠ 't' ∧
      ('x' : Char) ≠ '"' ∧ ('x' : Char) ≠ '\\' ∧
      lexString "" ['\\', 'x'] = lexString "\\" ['x']) ∧
    (('"' : Char) ∉ ['a', '\\'] ∧
      lexString "z" ['a', '\\'] = (.Illegal "Unterminated string", [])) :=
  ⟨⟨by decide, by decide, by decide, by decide, by decide,
    string_literal_lexing.2.2.2.2.2.2.1 "" 'x' [] (by decide) (by decide)
      (by decide) (by decide) (by decide)⟩,
   ⟨by decide,
    string_literal_lexing.2.2.2.2.2.2.2.1 ['a', '\\'] "z" (by decide)⟩⟩

/-- C9 (counterexample): the program `int x = null;` evaluates to the
bound value `Null` — and the driver then prints nothing, because
main.rs only prints a result that is not `Null`. -/
theorem null_declaration_result_not_printed :
    (eval_program 4 [.Let "x" (.Identifier "null")] 0 initialHeap).map
        Prod.fst = some .Null ∧
      mainPrints .Null = none := ⟨rfl, rfl⟩

/-- C9 (amended): a `Let` yields the value it binds and a
`FunctionDeclaration` yields the function value (both via the value
returned by `Environment::set`); a program ending in such a declaration
(no `Error`, no `ReturnValue`) has the declared value as its result;
and the driver prints `"Interpreter Result: …"` for it exactly when
that value is not `Null` — a declaration binding `Null` produces no
output. -/
theorem declarations_yield_bound_value :
    (∀ (fuel : Nat) (name : String) (value : Expression) (env : Nat)
       (heap : Heap) (v : Object) (h1 : Heap),
      eval_expression fuel value env heap = some (v, h1) →
      is_error v = false →
      eval_statement (fuel + 1) (.Let name value) env heap =
        some (v, envSet h1 env name v)) ∧
    (∀ (fuel : Nat) (name : String) (params : List String)
       (body : Statement) (env : Nat) (heap : Heap),
      eval_statement (fuel + 1) (.Function name params body) env heap =
        some (.Function params body env,
              envSet heap env name (.Function params body env))) ∧
    (∀ (fuel : Nat) (name : String) (value : Expression) (env : Nat)
       (heap : Heap) (v : Object) (h1 : Heap),
      eval_statement fuel (.Let name value) env heap = some (v, h1) →
      is_error v = false → (∀ w, v ≠ .ReturnValue w) →
      eval_program (fuel + 1) [.Let name value] env heap = some (v, h1)) ∧
    (∀ v : Object, objectEq v .Null = false →
      mainPrints v = some ("Interpreter Result: " ++ inspect v)) ∧
    mainPrints .Null = none := by
  refine ⟨?_, ?_, ?_, ?_, rfl⟩
  · intro fuel name value env heap v h1 hv herr
    simp only [eval_statement, hv, herr]
    rfl
  · intro fuel name params body env heap
    rfl
  · intro fuel name value env heap v h1 hstmt herr hrv
    simp only [eval_program, hstmt]
    cases v <;> first
      | rfl
      | (rename_i w; exact absurd rfl (hrv w))
  · intro v h
    simp [mainPrints, h]

/-- Instance of `declarations_yield_bound_value` at concrete inputs:
`int x = 5;` yields `Integer 5` (statement and whole program), a
function declaration yields its function value, and the driver prints
`Integer 5`. -/
theorem declarations_yield_bound_value_witness :
    (eval_expression 1 (.Integer 5) 0 initialHeap =
        some (.Integer 5, initialHeap) ∧
      is_error (.Integer 5) = false) ∧
    eval_statement 2 (.Let "x" (.Integer 5)) 0 initialHeap =
      some (.Integer 5, envSet initialHeap 0 "x" (.Integer 5)) ∧
    eval_statement 1 (.Function "f" [] (.Block [])) 0 initialHeap =
      some (.Function [] (.Block []) 0,
            envSet initialHeap 0 "f" (.Function [] (.Block []) 0)) ∧
    eval_program 3 [.Let "x" (.Integer 5)] 0 initialHeap =
      some (.Integer 5, envSet initialHeap 0 "x" (.Integer 5)) ∧
    mainPrints (.Integer 5) = some "Interpreter Result: 5" :=
  ⟨⟨rfl, rfl⟩,
   declarations_yield_bound_value.1 1 "x" (.Integer 5) 0 initialHeap
     (.Integer 5) initialHeap rfl rfl,
   declarations_yield_bound_value.2.1 0 "f" [] (.Block []) 0 initialHeap,
   declarations_yield_bound_value.2.2.1 2 "x" (.Integer 5) 0 initialHeap
     (.Integer 5) (envSet initialHeap 0 "x" (.Integer 5)) rfl rfl
     (fun _ h => Object.noConfusion h),
   declarations_yield_bound_value.2.2.2.1 (.Integer 5) rfl⟩

/-- C10: when the first argument of `printf`/`sprintf` is not a
`String`, `format_output` performs no `%`-expansion and reports no
error: it returns `Ok` of the concatenation of the inspected forms of
all the arguments, in order (and an empty argument list gives the
empty string); `sprintf` wraps that text in a `String` value and
`printf` prints it and returns `Null`. -/
theorem format_without_string_first_concats :
    (∀ (first : Object) (rest : List Object),
      (∀ s, first ≠ .String s) →
      format_output (first :: rest) =
        .ok (String.join ((first :: rest).map inspect))) ∧
    format_output [] = .ok "" ∧
    (∀ (first : Object) (rest : List Object),
      (∀ s, first ≠ .String s) →
      sprintfBuiltin (first :: rest) =
        .String (String.join ((first :: rest).map inspect)) ∧
      printfBuiltin (first :: rest) =
        (.Null, String.join ((first :: rest).map inspect))) ∧
    sprintfBuiltin [] = .String "" ∧
    printfBuiltin [] = (.Null, "") := by
  have hfmt : ∀ (first : Object) (rest : List Object),
      (∀ s, first ≠ Object.String s) →
      format_output (first :: rest) =
        .ok (String.join ((first :: rest).map inspect)) := by
    intro first rest h
    cases first <;> first | rfl | exact absurd rfl (h _)
  refine ⟨hfmt, rfl, ?_, rfl, rfl⟩
  intro first rest h
  constructor
  · simp [sprintfBuiltin, hfmt first rest h]
  · simp [printfBuiltin, hfmt first rest h]

/-- Instance of `format_without_string_first_concats` with first
argument `Integer 3`: the output is the plain concatenation `3true`. -/
theorem format_without_string_first_concats_witness :
    format_output [.Integer 3, .Boolean true] = .ok "3true" ∧
    sprintfBuiltin [.Integer 3, .Boolean true] = .String "3true" ∧
    printfBuiltin [.Integer 3, .Boolean true] = (.Null, "3true") :=
  ⟨format_without_string_first_concats.1 (.Integer 3) [.Boolean true]
     (fun _ h => Object.noConfusion h),
   (format_without_string_first_concats.2.2.1 (.Integer 3) [.Boolean true]
     (fun _ h => Object.noConfusion h)).1,
   (format_without_string_first_concats.2.2.1 (.Integer 3) [.Boolean true]
     (fun _ h => Object.noConfusion h)).2⟩
